import Mathlib

/-!
Verification of the Crestron XSIG protocol engine
(`custom_components/crestron/crestron.py`).

The engine is a TCP server whose `handle_connection` loop parses digital,
analog and serial join frames from a byte stream, maintains three join-value
dictionaries, and fans decoded events out to registered callbacks; the
`set_digital` / `set_analog` / `set_serial` methods encode outbound frames.
This file shallowly embeds those functions: Python integers are `Int`/`Nat`
(with the two's-complement operators modelled explicitly), Python `dict`s are
association lists, `struct.pack` range errors and other exceptions are made
explicit, and the asyncio byte stream is a list of delivered chunks from
which each `reader.read(n)` call takes at most `n` bytes.
-/

namespace Crestron

/-! ## Python integer primitives -/

/-- Python bitwise complement on unbounded integers. -/
def pyNot (x : Int) : Int := -x - 1

/-- Python arithmetic right shift (floor division by a power of two);
Lean's `Int.fdiv` rounds toward negative infinity exactly as Python does. -/
def pyShr (x : Int) (n : Nat) : Int := Int.fdiv x (2 ^ n)

/-- Python bitwise and of a (possibly negative, two's-complement) integer
with a mask below 256: taking the value modulo 256 first keeps exactly the
low eight two's-complement bits, which contain every bit of the mask. -/
def pyAnd8 (x : Int) (m : Nat) : Nat := (Int.fmod x 256).toNat &&& m

/-- The digital value bit of an inbound digital frame:
`~header[0] >> 5 & 0b1` from `handle_connection`. -/
def digitalBit (b0 : Nat) : Nat := pyAnd8 (pyShr (pyNot (b0 : Int)) 5) 1

/-- The inverted value bit of an outbound digital frame:
`~value << 5 & 0b00100000` from `set_digital` (Python booleans are 0/1). -/
def invBit (v : Bool) : Nat := pyAnd8 (pyNot (if v then (1 : Int) else 0) * 32) 32

/-- Validity of `struct.pack` with `B` fields: every value must fit one byte, otherwise
`struct.error` is raised (modelled as `none`). -/
def packBytes (l : List Nat) : Option (List Nat) :=
  if ∀ b ∈ l, b < 256 then some l else none

/-! ## The join store (`self._digital`, `self._analog`, `self._serial`) -/

/-- Python `dict.get(key, default)` over an association list whose most
recent insertion comes first. -/
def dictGet {α : Type} (d : List (Nat × α)) (k : Nat) (dflt : α) : α :=
  match d.find? (fun p => p.1 == k) with
  | some p => p.2
  | none => dflt

/-- The mutable state of a `CrestronXsig` object that the outbound
`set_*` / `get_*` accessors can see: the three join dictionaries and
whether `self._writer` is set (a session is active). -/
structure Hub where
  digital : List (Nat × Bool)
  analog : List (Nat × Nat)
  serial : List (Nat × List Nat)
  writerPresent : Bool
deriving DecidableEq

/-- Outcome of one `set_*` call. -/
inductive SendResult
  /-- `self._writer.write(data)` was reached with these bytes. -/
  | sent (bytes : List Nat)
  /-- `self._writer` was unset: "Could not send. No connection to hub". -/
  | noSession
  /-- `set_serial` length guard: "Could not send. String too long". -/
  | rejected
  /-- `struct.error` propagated out of `struct.pack`. -/
  | error
deriving DecidableEq

def isSent : SendResult → Bool
  | .sent _ => true
  | _ => false

/-- Method `get_digital`: `self._digital.get(join, False)`. -/
def Hub.get_digital (h : Hub) (j : Nat) : Bool := dictGet h.digital j false

/-- Method `get_analog`: `self._analog.get(join, 0)`. -/
def Hub.get_analog (h : Hub) (j : Nat) : Nat := dictGet h.analog j 0

/-- Method `get_serial`: `self._serial.get(join, "")`. -/
def Hub.get_serial (h : Hub) (j : Nat) : List Nat := dictGet h.serial j []

/-- Method `set_digital(join, value)`: packs
`0b10000000 | (~value << 5 & 0b00100000) | (join - 1) >> 7` and
`(join - 1) & 0b01111111` and writes them.  The join dictionaries are not
touched and no callback is invoked; the third component records the (empty)
list of `(key, value)` notifications the call performs. -/
def Hub.set_digital (h : Hub) (j : Nat) (v : Bool) :
    Hub × SendResult × List (String × String) :=
  if h.writerPresent then
    match packBytes [128 ||| invBit v ||| ((j - 1) >>> 7), (j - 1) &&& 127] with
    | some bs => (h, .sent bs, [])
    | none => (h, .error, [])
  else (h, .noSession, [])

/-- Method `set_analog(join, value)`: packs the four bytes
`0b11000000 | (value >> 10 & 0b00110000) | (join - 1) >> 7`,
`(join - 1) & 0b01111111`, `value >> 7 & 0b01111111`, `value & 0b01111111`
and writes them; the store is not touched and no callback is invoked. -/
def Hub.set_analog (h : Hub) (j : Nat) (v : Nat) :
    Hub × SendResult × List (String × String) :=
  if h.writerPresent then
    match packBytes [192 ||| ((v >>> 10) &&& 48) ||| ((j - 1) >>> 7),
        (j - 1) &&& 127, (v >>> 7) &&& 127, v &&& 127] with
    | some bs => (h, .sent bs, [])
    | none => (h, .error, [])
  else (h, .noSession, [])

/-- UTF-8 encoding of one Unicode code point, as Python `str.encode()`. -/
def utf8Char (c : Nat) : List Nat :=
  if c < 128 then [c]
  else if c < 2048 then [192 ||| (c >>> 6), 128 ||| (c &&& 63)]
  else if c < 65536 then
    [224 ||| (c >>> 12), 128 ||| ((c >>> 6) &&& 63), 128 ||| (c &&& 63)]
  else
    [240 ||| (c >>> 18), 128 ||| ((c >>> 12) &&& 63),
     128 ||| ((c >>> 6) &&& 63), 128 ||| (c &&& 63)]

/-- Python `str.encode()`: UTF-8 bytes of a Python string, the string being a
sequence of Unicode code points. -/
def utf8Encode (s : List Nat) : List Nat := s.flatMap utf8Char

/-- Method `set_serial(join, string)`: rejects when `len(string) > 252` (a count
of characters, not of encoded bytes), otherwise packs
`0b11001000 | ((join - 1) >> 7)` and `(join - 1) & 0b01111111`, appends
`string.encode()` and the `0xff` terminator, and writes the result; the
store is not touched and no callback is invoked. -/
def Hub.set_serial (h : Hub) (j : Nat) (s : List Nat) :
    Hub × SendResult × List (String × String) :=
  if 252 < s.length then (h, .rejected, [])
  else if h.writerPresent then
    match packBytes [200 ||| ((j - 1) >>> 7), (j - 1) &&& 127] with
    | some hdr => (h, .sent (hdr ++ utf8Encode s ++ [255]), [])
    | none => (h, .error, [])
  else (h, .noSession, [])

/-! ## Pure digital codec (for the round-trip property) -/

/-- The two bytes `set_digital` sends for a join and boolean value. -/
def encodeDigital (j : Nat) (v : Bool) : Option (List Nat) :=
  packBytes [128 ||| invBit v ||| ((j - 1) >>> 7), (j - 1) &&& 127]

/-- Header discriminator of the digital branch of `handle_connection`:
`data[0] & 0b11000000 == 0b10000000 and data[1] & 0b10000000 == 0`. -/
def digitalHdr (b0 b1 : Nat) : Prop := b0 &&& 192 = 128 ∧ b1 &&& 128 = 0

/-- Header discriminator of the analog branch:
`data[0] & 0b11001000 == 0b11000000 and data[1] & 0b10000000 == 0`. -/
def analogHdr (b0 b1 : Nat) : Prop := b0 &&& 200 = 192 ∧ b1 &&& 128 = 0

/-- Header discriminator of the serial branch:
`data[0] & 0b11001000 == 0b11001000 and data[1] & 0b10000000 == 0`. -/
def serialHdr (b0 b1 : Nat) : Prop := b0 &&& 200 = 200 ∧ b1 &&& 128 = 0

instance (b0 b1 : Nat) : Decidable (digitalHdr b0 b1) := by
  unfold digitalHdr; infer_instance

instance (b0 b1 : Nat) : Decidable (analogHdr b0 b1) := by
  unfold analogHdr; infer_instance

instance (b0 b1 : Nat) : Decidable (serialHdr b0 b1) := by
  unfold serialHdr; infer_instance

/-- Decoding a two-byte frame by the digital branch of `handle_connection`:
join is `((data[0] & 0b00011111) << 7 | data[1]) + 1`, value is
`~data[0] >> 5 & 0b1` turned into a boolean. -/
def decodeDigitalFrame : List Nat → Option (Nat × Bool)
  | [b0, b1] =>
    if digitalHdr b0 b1 then
      some ((((b0 &&& 31) <<< 7) ||| b1) + 1,
        if digitalBit b0 = 1 then true else false)
    else none
  | _ => none

/-! ## The session parser (`handle_connection`)

The asyncio transport delivers the wire bytes in chunks; `reader.read(n)`
returns at least one and at most `n` bytes from the buffered chunk as soon
as data is available, an empty result meaning end of stream.  A stream is
modelled as the list of buffered chunks in delivery order; a read takes up
to `n` bytes from the front chunk and never blocks across chunks. -/

/-- One `await reader.read(n)` call: take up to `n` bytes from the front chunk. -/
def readUpTo (n : Nat) : List (List Nat) → List Nat × List (List Nat)
  | [] => ([], [])
  | [] :: rest => readUpTo n rest
  | (c :: cs) :: rest =>
    let t := (c :: cs).take n
    let r := (c :: cs).drop n
    (t, if r.isEmpty then rest else r :: rest)

/-- A registered subscriber callback (`self._callbacks`): `raises k v` is
true when invoking the callback on event `(k, v)` raises an exception. -/
structure CB where
  raises : String → String → Bool

/-- The kinds of exception a modelled callback can raise; the 0xFB branch of
`handle_connection` catches `ValueError` only. -/
inductive PyExc
  | valueError
  | otherError
deriving DecidableEq

/-- The registered sync-all-joins callback: `exc n` is the exception (if
any) raised by its `n`-th invocation. -/
structure SyncB where
  exc : Nat → Option PyExc

/-- Fan-out `for callback in self._callbacks: await callback(k, v)` starting
at subscriber index `i`: returns the list of performed invocations as
`(index, key, value)` triples and whether the loop ran to completion.  The
loop body is not guarded, so the first raising callback (which is invoked,
and recorded) aborts the loop. -/
def fanOutFrom (i : Nat) : List CB → String → String →
    List (Nat × String × String) × Bool
  | [], _, _ => ([], true)
  | cb :: rest, k, v =>
    if cb.raises k v then ([(i, k, v)], false)
    else
      let (evs, ok) := fanOutFrom (i + 1) rest k v
      ((i, k, v) :: evs, ok)

/-- Fan-out over the whole subscriber list. -/
def fanOut (cbs : List CB) (k v : String) : List (Nat × String × String) × Bool :=
  fanOutFrom 0 cbs k v

/-- Event key `f"d{join}"`. -/
def dKey (j : Nat) : String := "d" ++ toString j

/-- Event key `f"a{join}"`. -/
def aKey (j : Nat) : String := "a" ++ toString j

/-- Event key `f"s{join}"`. -/
def sKey (j : Nat) : String := "s" ++ toString j

/-- Python `bytes.decode("ascii")` for bytes already checked to be below 128. -/
def asciiStr (l : List Nat) : String := String.mk (l.map Char.ofNat)

/-- Observable state accumulated by one `handle_connection` session: the
three join dictionaries, the transcript of callback invocations, and the
number of invocations of the sync-all-joins callback. -/
structure St where
  dig : List (Nat × Bool)
  ana : List (Nat × Nat)
  ser : List (Nat × List Nat)
  evs : List (Nat × String × String)
  syncCount : Nat
deriving DecidableEq

/-- How the session's `while connected` loop ended. -/
inductive SessionEnd
  /-- a read returned no data: `connected = False`, normal exit. -/
  | clean
  /-- an exception escaped to the `except` handler of `handle_connection`. -/
  | exc
deriving DecidableEq

/-- One session's `while connected` parse loop.  `fuel` bounds the number
of iterations; every iteration either terminates the loop or consumes at
least one stream byte, so any `fuel` larger than the total byte count is
enough and the `fuel = 0` case is never reached on such calls. -/
def loop (cbs : List CB) (sync : Option SyncB) :
    Nat → St → List (List Nat) → St × SessionEnd
  | 0, st, _ => (st, .clean)
  | fuel + 1, st, s =>
    match readUpTo 1 s with
    | ([], _) => (st, .clean)
    | (b0 :: _, s1) =>
      if b0 = 251 then
        -- Sync all joins request (0xFB)
        match sync with
        | none => loop cbs sync fuel st s1
        | some sb =>
          match sb.exc st.syncCount with
          | none => loop cbs sync fuel { st with syncCount := st.syncCount + 1 } s1
          | some .valueError =>
            -- caught by `except ValueError`; loop continues
            loop cbs sync fuel { st with syncCount := st.syncCount + 1 } s1
          | some .otherError =>
            -- not caught here: propagates to the session handler
            ({ st with syncCount := st.syncCount + 1 }, .exc)
      else
        match readUpTo 1 s1 with
        | (d2, s2) =>
          if b0 &&& 192 = 128 then
            -- Digital join branch; `data[1]` raises IndexError on a
            -- one-byte `data`.
            match d2 with
            | [] => (st, .exc)
            | b1 :: _ =>
              if b1 &&& 128 = 0 then
                let join := (((b0 &&& 31) <<< 7) ||| b1) + 1
                let v := digitalBit b0
                let st' := { st with
                  dig := (join, if v = 1 then true else false) :: st.dig }
                match fanOut cbs (dKey join) (toString v) with
                | (evs, ok) =>
                  let st'' := { st' with evs := st'.evs ++ evs }
                  if ok then loop cbs sync fuel st'' s2 else (st'', .exc)
              else loop cbs sync fuel st s2
          else if b0 &&& 200 = 192 then
            -- Analog join branch: `data += await reader.read(2)` then
            -- `struct.unpack("BBBB", data)`, which raises unless exactly
            -- two extra bytes were read.
            match d2 with
            | [] => (st, .exc)
            | b1 :: _ =>
              if b1 &&& 128 = 0 then
                match readUpTo 2 s2 with
                | ([b2, b3], s3) =>
                  let join := (((b0 &&& 7) <<< 7) ||| b1) + 1
                  let v := ((b0 &&& 48) <<< 10) ||| (b2 <<< 7) ||| b3
                  let st' := { st with ana := (join, v) :: st.ana }
                  match fanOut cbs (aKey join) (toString v) with
                  | (evs, ok) =>
                    let st'' := { st' with evs := st'.evs ++ evs }
                    if ok then loop cbs sync fuel st'' s3 else (st'', .exc)
                | (_, _) => (st, .exc)
              else loop cbs sync fuel st s2
          else if b0 &&& 200 = 200 then
            -- Serial join branch: one length byte, then
            -- `data = await reader.read(length)` (a single read, which may
            -- return fewer than `length` bytes or none at all), then
            -- `data.decode("ascii")` which raises on bytes above 127.
            match d2 with
            | [] => (st, .exc)
            | b1 :: _ =>
              if b1 &&& 128 = 0 then
                match readUpTo 1 s2 with
                | ([len], s3) =>
                  let join := (((b0 &&& 7) <<< 7) ||| b1) + 1
                  match readUpTo len s3 with
                  | (payload, s4) =>
                    if ∀ b ∈ payload, b < 128 then
                      let st' := { st with ser := (join, payload) :: st.ser }
                      match fanOut cbs (sKey join) (asciiStr payload) with
                      | (evs, ok) =>
                        let st'' := { st' with evs := st'.evs ++ evs }
                        if ok then loop cbs sync fuel st'' s4 else (st'', .exc)
                    else (st, .exc)
                | (_, _) => (st, .exc)
              else loop cbs sync fuel st s2
          else
            -- No discriminator matched: the two bytes are discarded and
            -- the loop continues.
            loop cbs sync fuel st s2

/-- Total number of bytes in a stream. -/
def totalLen (s : List (List Nat)) : Nat := (s.map List.length).sum

/-- A whole `handle_connection` session over a given delivered stream:
availability fan-out on connect, the parse loop, and the `finally` block's
availability fan-out on every exit path. -/
def runSession (cbs : List CB) (sync : Option SyncB)
    (stream : List (List Nat)) : St × SessionEnd :=
  match fanOut cbs "available" "True" with
  | (evs0, ok0) =>
    if ok0 then
      match loop cbs sync (totalLen stream + 1) ⟨[], [], [], evs0, 0⟩ stream with
      | (st, e) =>
        match fanOut cbs "available" "False" with
        | (evs1, _) => ({ st with evs := st.evs ++ evs1 }, e)
    else
      match fanOut cbs "available" "False" with
      | (evs1, _) => (⟨[], [], [], evs0 ++ evs1, 0⟩, .exc)

/-- A subscriber that never raises. -/
def benignCB : CB := ⟨fun _ _ => false⟩

/-- A subscriber list none of whose members ever raises. -/
def Benign (cbs : List CB) : Prop := ∀ cb ∈ cbs, ∀ k v, cb.raises k v = false

/-- The `(index, key, value)` triples of a completed fan-out pass starting
at index `i` over `n` subscribers. -/
def allEvsFrom (i n : Nat) (k v : String) : List (Nat × String × String) :=
  (List.range n).map (fun idx => (i + idx, k, v))

/-- The invocation triples of a completed fan-out pass over `cbs`. -/
def allEvs (cbs : List CB) (k v : String) : List (Nat × String × String) :=
  allEvsFrom 0 cbs.length k v

/-- A `Hub` with an active session and an empty store, as after a fresh
connection before any inbound frame. -/
def hubActive : Hub := ⟨[], [], [], true⟩

/-! ## Helper lemmas -/

theorem invBit_true : invBit true = 0 := by decide

theorem invBit_false : invBit false = 32 := by decide

/-- Joining disjoint bit ranges: a shifted value or-ed with a small value
is their sum. -/
theorem shiftLeft_lor_eq_add {b : Nat} (a n : Nat) (hb : b < 2 ^ n) :
    (a <<< n) ||| b = 2 ^ n * a + b := by
  apply Nat.eq_of_testBit_eq
  intro i
  rw [Nat.testBit_or, Nat.testBit_shiftLeft, Nat.testBit_mul_pow_two_add a hb i]
  by_cases h : i < n
  · simp [h, Nat.not_le_of_lt h]
  · have hbi : b.testBit i = false :=
      Nat.testBit_lt_two_pow
        (hb.trans_le (Nat.pow_le_pow_right (by norm_num) (Nat.le_of_not_lt h)))
    simp [h, Nat.le_of_not_lt h, hbi]

theorem encDigitalByte0_true : ∀ hi < 32, 128 ||| invBit true ||| hi = 128 + hi := by decide

theorem encDigitalByte0_false : ∀ hi < 32, 128 ||| invBit false ||| hi = 160 + hi := by decide

theorem and192_of_digByte0 :
    ∀ hi < 32, (128 + hi) &&& 192 = 128 ∧ (160 + hi) &&& 192 = 128 := by decide

theorem and31_of_digByte0 :
    ∀ hi < 32, (128 + hi) &&& 31 = hi ∧ (160 + hi) &&& 31 = hi := by decide

theorem digitalBit_of_digByte0 :
    ∀ hi < 32, digitalBit (128 + hi) = 1 ∧ digitalBit (160 + hi) = 0 := by decide

theorem and128_of_lt : ∀ b < 128, b &&& 128 = 0 := by decide

/-! ## C4: digital encode/decode round trip -/

/-- C4 (corrected): the claim quantifies over joins 1..16384, but the
digital encoding keeps only five high join bits in byte 0 (bit 5 carries the
inverted value, bit 6 belongs to the type discriminator), so the round trip
fails as soon as the 0-based join needs bit 12: join 4097 with value true
encodes to `0xA0 0x00`, which decodes to join 1 with value false. -/
theorem C4_counterexample :
    (encodeDigital 4097 true).bind decodeDigitalFrame = some (1, false) ∧
    (encodeDigital 4097 true).bind decodeDigitalFrame ≠ some (4097, true) := by
  decide

/-- C4 (amended): for every digital join 1..4096 and every boolean value,
decoding the two-byte frame produced by the digital encoder yields back
exactly the same join number and boolean value. -/
theorem C4_roundtrip (j : Nat) (v : Bool) (hj1 : 1 ≤ j) (hj2 : j ≤ 4096) :
    (encodeDigital j v).bind decodeDigitalFrame = some (j, v) := by
  have hk4 : j - 1 < 4096 := by omega
  have hhi : (j - 1) >>> 7 < 32 := by
    rw [Nat.shiftRight_eq_div_pow]; omega
  have hhi' : (j - 1) >>> 7 = (j - 1) / 128 := by
    rw [Nat.shiftRight_eq_div_pow]
  have hlo : (j - 1) &&& 127 = (j - 1) % 128 := by
    have h7 : (127 : Nat) = 2 ^ 7 - 1 := by norm_num
    rw [h7, Nat.and_pow_two_sub_one_eq_mod]
  have hlo128 : (j - 1) &&& 127 < 128 := by
    rw [hlo]; exact Nat.mod_lt _ (by norm_num)
  have hjoin : ((((j - 1) >>> 7) <<< 7) ||| ((j - 1) &&& 127)) + 1 = j := by
    rw [shiftLeft_lor_eq_add _ 7 (by rw [hlo]; exact Nat.mod_lt _ (by norm_num)),
      hhi', hlo]
    have := Nat.div_add_mod (j - 1) 128
    omega
  cases v with
  | true =>
    have hb0 := encDigitalByte0_true _ hhi
    have h192 := (and192_of_digByte0 _ hhi).1
    have h31 := (and31_of_digByte0 _ hhi).1
    have hbit := (digitalBit_of_digByte0 _ hhi).1
    have hb0lt : 128 + (j - 1) >>> 7 < 256 := by omega
    simp only [encodeDigital, hb0, packBytes]
    rw [if_pos (by
      intro b hb
      simp only [List.mem_cons, List.not_mem_nil, or_false] at hb
      rcases hb with rfl | rfl
      · exact hb0lt
      · omega)]
    simp only [Option.some_bind, decodeDigitalFrame, digitalHdr]
    rw [if_pos ⟨h192, and128_of_lt _ hlo128⟩]
    simp only [h31, hjoin, hbit]
    simp
  | false =>
    have hb0 := encDigitalByte0_false _ hhi
    have h192 := (and192_of_digByte0 _ hhi).2
    have h31 := (and31_of_digByte0 _ hhi).2
    have hbit := (digitalBit_of_digByte0 _ hhi).2
    have hb0lt : 160 + (j - 1) >>> 7 < 256 := by omega
    simp only [encodeDigital, hb0, packBytes]
    rw [if_pos (by
      intro b hb
      simp only [List.mem_cons, List.not_mem_nil, or_false] at hb
      rcases hb with rfl | rfl
      · exact hb0lt
      · omega)]
    simp only [Option.some_bind, decodeDigitalFrame, digitalHdr]
    rw [if_pos ⟨h192, and128_of_lt _ hlo128⟩]
    simp only [h31, hjoin, hbit]
    simp

/-- Witness for `C4_roundtrip` at join 5 and value true. -/
theorem C4_roundtrip_witness :
    (encodeDigital 5 true).bind decodeDigitalFrame = some (5, true) :=
  C4_roundtrip 5 true (by omega) (by omega)

/-! ## C9: mutual exclusivity of the header discriminators -/

/-- C9 (confirmed): for every byte pair, at most one of the digital, analog
and serial header discriminators of `handle_connection` holds: digital
requires bit 6 of byte 0 to be clear while analog and serial require it set,
and analog and serial disagree on bit 3. -/
theorem C9_header_exclusive (b0 b1 : Nat) (h0 : b0 < 256) (h1 : b1 < 256) :
    ¬(digitalHdr b0 b1 ∧ analogHdr b0 b1) ∧
      ¬(digitalHdr b0 b1 ∧ serialHdr b0 b1) ∧
      ¬(analogHdr b0 b1 ∧ serialHdr b0 b1) := by
  have e192 : (192 : Nat).testBit 6 = true := by decide
  have e200 : (200 : Nat).testBit 6 = true := by decide
  have e128 : (128 : Nat).testBit 6 = false := by decide
  refine ⟨?_, ?_, ?_⟩
  · rintro ⟨⟨ha, -⟩, ⟨hb, -⟩⟩
    have h6a : b0.testBit 6 = false := by
      have := congrArg (fun n => n.testBit 6) ha
      simpa [Nat.testBit_and, e192, e128] using this
    have h6b : b0.testBit 6 = true := by
      have := congrArg (fun n => n.testBit 6) hb
      simpa [Nat.testBit_and, e200, e192] using this
    rw [h6a] at h6b
    exact Bool.false_ne_true h6b
  · rintro ⟨⟨ha, -⟩, ⟨hb, -⟩⟩
    have h6a : b0.testBit 6 = false := by
      have := congrArg (fun n => n.testBit 6) ha
      simpa [Nat.testBit_and, e192, e128] using this
    have h6b : b0.testBit 6 = true := by
      have := congrArg (fun n => n.testBit 6) hb
      simpa [Nat.testBit_and, e200] using this
    rw [h6a] at h6b
    exact Bool.false_ne_true h6b
  · rintro ⟨⟨ha, -⟩, ⟨hb, -⟩⟩
    exact absurd (ha.symm.trans hb) (by decide)

/-- Witness for `C9_header_exclusive` at the byte pair (0x80, 0x00). -/
theorem C9_header_exclusive_witness :
    ¬(digitalHdr 128 0 ∧ analogHdr 128 0) ∧
      ¬(digitalHdr 128 0 ∧ serialHdr 128 0) ∧
      ¬(analogHdr 128 0 ∧ serialHdr 128 0) :=
  C9_header_exclusive 128 0 (by omega) (by omega)

/-! ## C1: the `set_*` accessors and the join store -/

theorem set_digital_hub (h : Hub) (j : Nat) (v : Bool) :
    (h.set_digital j v).1 = h := by
  unfold Hub.set_digital
  by_cases hw : h.writerPresent
  · simp only [hw, if_true]
    cases packBytes [128 ||| invBit v ||| ((j - 1) >>> 7), (j - 1) &&& 127] <;> simp
  · simp [hw]

theorem set_analog_hub (h : Hub) (j v : Nat) :
    (h.set_analog j v).1 = h := by
  unfold Hub.set_analog
  by_cases hw : h.writerPresent
  · simp only [hw, if_true]
    cases packBytes [192 ||| ((v >>> 10) &&& 48) ||| ((j - 1) >>> 7),
        (j - 1) &&& 127, (v >>> 7) &&& 127, v &&& 127] <;> simp
  · simp [hw]

theorem set_serial_hub (h : Hub) (j : Nat) (s : List Nat) :
    (h.set_serial j s).1 = h := by
  unfold Hub.set_serial
  by_cases hl : 252 < s.length
  · simp [hl]
  · by_cases hw : h.writerPresent
    · simp only [hl, if_false, hw, if_true]
      cases packBytes [200 ||| ((j - 1) >>> 7), (j - 1) &&& 127] <;> simp
    · simp [hl, hw]

theorem set_digital_evs (h : Hub) (j : Nat) (v : Bool) :
    (h.set_digital j v).2.2 = [] := by
  unfold Hub.set_digital
  by_cases hw : h.writerPresent
  · simp only [hw, if_true]
    cases packBytes [128 ||| invBit v ||| ((j - 1) >>> 7), (j - 1) &&& 127] <;> simp
  · simp [hw]

theorem set_analog_evs (h : Hub) (j v : Nat) :
    (h.set_analog j v).2.2 = [] := by
  unfold Hub.set_analog
  by_cases hw : h.writerPresent
  · simp only [hw, if_true]
    cases packBytes [192 ||| ((v >>> 10) &&& 48) ||| ((j - 1) >>> 7),
        (j - 1) &&& 127, (v >>> 7) &&& 127, v &&& 127] <;> simp
  · simp [hw]

theorem set_serial_evs (h : Hub) (j : Nat) (s : List Nat) :
    (h.set_serial j s).2.2 = [] := by
  unfold Hub.set_serial
  by_cases hl : 252 < s.length
  · simp [hl]
  · by_cases hw : h.writerPresent
    · simp only [hl, if_false, hw, if_true]
      cases packBytes [200 ||| ((j - 1) >>> 7), (j - 1) &&& 127] <;> simp
    · simp [hl, hw]

theorem or_lt_256 {a b : Nat} (ha : a < 256) (hb : b < 256) : a ||| b < 256 := by
  have h8 : (2 : Nat) ^ 8 = 256 := by norm_num
  have h := Nat.or_lt_two_pow (n := 8) (x := a) (y := b)
    (by rw [h8]; exact ha) (by rw [h8]; exact hb)
  rwa [h8] at h

theorem shr7_le (j : Nat) (hj : j ≤ 1024) : (j - 1) >>> 7 < 8 := by
  rw [Nat.shiftRight_eq_div_pow]
  omega

/-- C1 (counterexample): with an active session and an empty store,
`set_digital(5, true)` leaves `get_digital(5)` at the default false — the
claimed store update to true does not happen — and performs no subscriber
notification. -/
theorem C1_counterexample :
    (hubActive.set_digital 5 true).1.get_digital 5 = false ∧
    (hubActive.set_digital 5 true).2.2 = [] := by decide

/-- C1 (amended): while a session is active, `set_digital` / `set_analog` /
`set_serial` encode the frame and write it to the socket but leave the join
store unchanged — a subsequent `get_*` returns whatever the store held
before, not the value just sent — and notify no subscriber; the store is
updated and subscribers are notified only when an inbound frame is decoded
by `handle_connection`. -/
theorem C1_set_no_store_update (h : Hub) (j : Nat) (vd : Bool) (va : Nat)
    (vs : List Nat) (hj1 : 1 ≤ j) (hj2 : j ≤ 1024) (hvs : vs.length ≤ 252) :
    (h.set_digital j vd).1 = h ∧ (h.set_analog j va).1 = h ∧
      (h.set_serial j vs).1 = h ∧
      (h.set_digital j vd).2.2 = [] ∧ (h.set_analog j va).2.2 = [] ∧
      (h.set_serial j vs).2.2 = [] ∧
      (h.set_digital j vd).1.get_digital j = h.get_digital j ∧
      (h.set_analog j va).1.get_analog j = h.get_analog j ∧
      (h.set_serial j vs).1.get_serial j = h.get_serial j ∧
      (h.writerPresent = true →
        isSent (h.set_digital j vd).2.1 = true ∧
        isSent (h.set_analog j va).2.1 = true ∧
        isSent (h.set_serial j vs).2.1 = true) := by
  have hhi : (j - 1) >>> 7 < 8 := shr7_le j hj2
  refine ⟨set_digital_hub h j vd, set_analog_hub h j va, set_serial_hub h j vs,
    set_digital_evs h j vd, set_analog_evs h j va, set_serial_evs h j vs,
    by rw [set_digital_hub], by rw [set_analog_hub], by rw [set_serial_hub],
    fun hw => ⟨?_, ?_, ?_⟩⟩
  · have hb0 : 128 ||| invBit vd ||| ((j - 1) >>> 7) < 256 := by
      refine or_lt_256 (or_lt_256 (by omega) ?_) (by omega)
      cases vd
      · rw [invBit_false]; omega
      · rw [invBit_true]; omega
    unfold Hub.set_digital
    rw [hw, if_pos rfl, packBytes, if_pos (by
      intro b hb
      simp only [List.mem_cons, List.not_mem_nil, or_false] at hb
      rcases hb with rfl | rfl
      · exact hb0
      · have := Nat.and_le_right (n := j - 1) (m := 127); omega)]
    rfl
  · have hb0 : 192 ||| ((va >>> 10) &&& 48) ||| ((j - 1) >>> 7) < 256 := by
      refine or_lt_256 (or_lt_256 (by omega) ?_) (by omega)
      have := Nat.and_le_right (n := va >>> 10) (m := 48); omega
    unfold Hub.set_analog
    rw [hw, if_pos rfl, packBytes, if_pos (by
      intro b hb
      simp only [List.mem_cons, List.not_mem_nil, or_false] at hb
      rcases hb with rfl | rfl | rfl | rfl
      · exact hb0
      · have := Nat.and_le_right (n := j - 1) (m := 127); omega
      · have := Nat.and_le_right (n := va >>> 7) (m := 127); omega
      · have := Nat.and_le_right (n := va) (m := 127); omega)]
    rfl
  · have hb0 : 200 ||| ((j - 1) >>> 7) < 256 := or_lt_256 (by omega) (by omega)
    unfold Hub.set_serial
    rw [if_neg (by omega), hw, if_pos rfl, packBytes, if_pos (by
      intro b hb
      simp only [List.mem_cons, List.not_mem_nil, or_false] at hb
      rcases hb with rfl | rfl
      · exact hb0
      · have := Nat.and_le_right (n := j - 1) (m := 127); omega)]
    rfl

/-- Witness for `C1_set_no_store_update` on a fresh active hub at join 5. -/
theorem C1_set_no_store_update_witness :
    (hubActive.set_digital 5 true).1 = hubActive ∧
      (hubActive.set_analog 5 7).1 = hubActive ∧
      (hubActive.set_serial 5 [104]).1 = hubActive ∧
      (hubActive.set_digital 5 true).2.2 = [] ∧
      (hubActive.set_analog 5 7).2.2 = [] ∧
      (hubActive.set_serial 5 [104]).2.2 = [] ∧
      (hubActive.set_digital 5 true).1.get_digital 5 = hubActive.get_digital 5 ∧
      (hubActive.set_analog 5 7).1.get_analog 5 = hubActive.get_analog 5 ∧
      (hubActive.set_serial 5 [104]).1.get_serial 5 = hubActive.get_serial 5 ∧
      (hubActive.writerPresent = true →
        isSent (hubActive.set_digital 5 true).2.1 = true ∧
        isSent (hubActive.set_analog 5 7).2.1 = true ∧
        isSent (hubActive.set_serial 5 [104]).2.1 = true) :=
  C1_set_no_store_update hubActive 5 true 7 [104] (by omega) (by omega)
    (by simp)

/-! ## C8: oversized serial rejection -/

set_option maxRecDepth 4000 in
/-- C8 (counterexample): `set_serial` guards on `len(string)` — the number
of characters — not on the encoded byte length.  A string of 127 copies of
the code point 0xE9 has 127 characters but a 254-byte UTF-8 encoding, so the
claimed rejection of every string whose encoded length exceeds 252 bytes
does not happen: the frame is written. -/
theorem C8_counterexample :
    (List.replicate 127 233).length ≤ 252 ∧
      252 < (utf8Encode (List.replicate 127 233)).length ∧
      isSent (hubActive.set_serial 1 (List.replicate 127 233)).2.1 = true := by
  decide

/-- C8 (amended): `set_serial` rejects exactly the strings with more than
252 characters (for ASCII strings the character count equals the encoded
length, so the spec's bound is enforced on those): such a call writes no
bytes, performs no notification, leaves the hub unchanged and raises
nothing — in particular `set_serial(1, "x"*253)` writes nothing. -/
theorem C8_too_long_rejected (h : Hub) (j : Nat) (s : List Nat)
    (hs : 252 < s.length) :
    h.set_serial j s = (h, .rejected, []) := by
  unfold Hub.set_serial
  rw [if_pos hs]

/-- Witness for `C8_too_long_rejected` at `set_serial(1, "x"*253)`. -/
theorem C8_too_long_rejected_witness :
    hubActive.set_serial 1 (List.replicate 253 120) =
      (hubActive, SendResult.rejected, []) :=
  C8_too_long_rejected hubActive 1 (List.replicate 253 120)
    (by rw [List.length_replicate]; omega)

/-! ## C10: analog values are truncated to their low 16 bits -/

/-- C10 (confirmed): `set_analog` packs only bits 0-15 of the value — bits
14-15 into byte 0, bits 7-13 into byte 2, bits 0-6 into byte 3 — so with an
active session every non-negative value is transmitted exactly as its low
16 bits would be, with no error for out-of-range values. -/
theorem C10_analog_mod_65536 (h : Hub) (j v : Nat) (hj1 : 1 ≤ j)
    (hj2 : j ≤ 1024) (hw : h.writerPresent = true) :
    h.set_analog j v = h.set_analog j (v % 65536) ∧
      isSent (h.set_analog j v).2.1 = true := by
  have h16 : (65536 : Nat) = 2 ^ 16 := by norm_num
  have e1 : (v >>> 10) &&& 48 = ((v % 65536) >>> 10) &&& 48 := by
    apply Nat.eq_of_testBit_eq
    intro i
    by_cases h48 : (48 : Nat).testBit i = true
    · have hi6 : i < 6 := by
        by_contra hi
        rw [Nat.testBit_lt_two_pow (x := 48) (i := i)
          (lt_of_lt_of_le (by norm_num)
            (Nat.pow_le_pow_right (by norm_num) (Nat.le_of_not_lt hi)))] at h48
        exact Bool.false_ne_true h48
      rw [h16]
      simp only [Nat.testBit_and, Nat.testBit_shiftRight, Nat.testBit_mod_two_pow]
      have : 10 + i < 16 := by omega
      simp [this]
    · rw [Bool.not_eq_true] at h48
      simp [Nat.testBit_and, h48]
  have e2 : (v >>> 7) &&& 127 = ((v % 65536) >>> 7) &&& 127 := by
    have h7 : (127 : Nat) = 2 ^ 7 - 1 := by norm_num
    rw [h7, Nat.and_pow_two_sub_one_eq_mod, Nat.and_pow_two_sub_one_eq_mod,
      Nat.shiftRight_eq_div_pow, Nat.shiftRight_eq_div_pow]
    have h65536 : (65536 : Nat) = 2 ^ 7 * 512 := by norm_num
    rw [h65536, Nat.mod_mul_right_div_self]
    rw [Nat.mod_mod_of_dvd _ (by norm_num)]
  have e3 : v &&& 127 = (v % 65536) &&& 127 := by
    have h7 : (127 : Nat) = 2 ^ 7 - 1 := by norm_num
    rw [h7, Nat.and_pow_two_sub_one_eq_mod, Nat.and_pow_two_sub_one_eq_mod,
      Nat.mod_mod_of_dvd _ (by norm_num)]
  constructor
  · unfold Hub.set_analog
    rw [e1, e2, e3]
  · have hhi : (j - 1) >>> 7 < 8 := shr7_le j hj2
    have hb0 : 192 ||| ((v >>> 10) &&& 48) ||| ((j - 1) >>> 7) < 256 := by
      refine or_lt_256 (or_lt_256 (by omega) ?_) (by omega)
      have := Nat.and_le_right (n := v >>> 10) (m := 48); omega
    unfold Hub.set_analog
    rw [hw, if_pos rfl, packBytes, if_pos (by
      intro b hb
      simp only [List.mem_cons, List.not_mem_nil, or_false] at hb
      rcases hb with rfl | rfl | rfl | rfl
      · exact hb0
      · have := Nat.and_le_right (n := j - 1) (m := 127); omega
      · have := Nat.and_le_right (n := v >>> 7) (m := 127); omega
      · have := Nat.and_le_right (n := v) (m := 127); omega)]
    rfl

/-- Witness for `C10_analog_mod_65536` at join 1 and value 70000. -/
theorem C10_analog_mod_65536_witness :
    hubActive.set_analog 1 70000 = hubActive.set_analog 1 (70000 % 65536) ∧
      isSent (hubActive.set_analog 1 70000).2.1 = true :=
  C10_analog_mod_65536 hubActive 1 70000 (by omega) (by omega) rfl

/-! ## Fan-out lemmas -/

theorem allEvsFrom_zero (i : Nat) (k v : String) : allEvsFrom i 0 k v = [] := by
  simp [allEvsFrom]

theorem allEvsFrom_succ (i n : Nat) (k v : String) :
    allEvsFrom i (n + 1) k v = (i, k, v) :: allEvsFrom (i + 1) n k v := by
  unfold allEvsFrom
  rw [List.range_succ_eq_map, List.map_cons, List.map_map]
  refine congrArg₂ _ (by simp) (List.map_congr_left ?_)
  intro a _
  show (i + (a + 1), k, v) = (i + 1 + a, k, v)
  have h : i + (a + 1) = i + 1 + a := by omega
  rw [h]

/-- A completed fan-out pass: when no subscriber raises on `(k, v)`, every
subscriber is invoked in order and the loop finishes. -/
theorem fanOutFrom_ok (cbs : List CB) (k v : String)
    (hb : ∀ cb ∈ cbs, cb.raises k v = false) (i : Nat) :
    fanOutFrom i cbs k v = (allEvsFrom i cbs.length k v, true) := by
  induction cbs generalizing i with
  | nil => simp [fanOutFrom, allEvsFrom]
  | cons cb rest ih =>
    have hcb : cb.raises k v = false := hb cb (by simp)
    simp only [fanOutFrom, hcb, Bool.false_eq_true, if_false,
      ih (fun c hc => hb c (by simp [hc])) (i + 1)]
    simp [allEvsFrom_succ]

/-- An aborted fan-out pass: the benign subscribers before the raiser are
invoked, the raiser is invoked and aborts the loop, and the subscribers
after it are skipped. -/
theorem fanOutFrom_raiser (pre post : List CB) (r : CB) (k v : String)
    (hpre : ∀ cb ∈ pre, cb.raises k v = false) (hr : r.raises k v = true)
    (i : Nat) :
    fanOutFrom i (pre ++ r :: post) k v =
      (allEvsFrom i pre.length k v ++ [(i + pre.length, k, v)], false) := by
  induction pre generalizing i with
  | nil => simp [fanOutFrom, hr, allEvsFrom]
  | cons cb rest ih =>
    have hcb : cb.raises k v = false := hpre cb (by simp)
    simp only [List.cons_append, fanOutFrom, hcb, Bool.false_eq_true, if_false,
      List.append_eq, ih (fun c hc => hpre c (by simp [hc])) (i + 1)]
    simp only [List.length_cons, allEvsFrom_succ, List.cons_append]
    have h : i + (rest.length + 1) = i + 1 + rest.length := by omega
    rw [h]

theorem fanOut_ok (cbs : List CB) (k v : String)
    (hb : ∀ cb ∈ cbs, cb.raises k v = false) :
    fanOut cbs k v = (allEvs cbs k v, true) :=
  fanOutFrom_ok cbs k v hb 0

theorem Benign.pointwise {cbs : List CB} (h : Benign cbs) (k v : String) :
    ∀ cb ∈ cbs, cb.raises k v = false := fun cb hcb => h cb hcb k v

/-! ## C2: incremental delivery -/

set_option maxRecDepth 4000 in
/-- C2 (code bug): the analog frame `0xC0 0x00 0x00 0x07` (analog join 1 =
7) decodes to exactly one event when delivered in one chunk, but when the
same bytes are delivered one per read, `data += await reader.read(2)`
returns a single byte, `struct.unpack("BBBB", data)` raises on the
three-byte buffer, and the session terminates with no event and no store
update — the two deliveries are observably different, contrary to the
claim. -/
theorem C2_incremental_divergence :
    (runSession [benignCB] none [[192, 0, 0, 7]]).1.ana = [(1, 7)] ∧
      (0, aKey 1, toString (7 : Nat)) ∈
        (runSession [benignCB] none [[192, 0, 0, 7]]).1.evs ∧
      (runSession [benignCB] none [[192, 0, 0, 7]]).2 = SessionEnd.clean ∧
      (runSession [benignCB] none [[192], [0], [0], [7]]).1.ana = [] ∧
      (runSession [benignCB] none [[192], [0], [0], [7]]).1.evs =
        [(0, "available", "True"), (0, "available", "False")] ∧
      (runSession [benignCB] none [[192], [0], [0], [7]]).2 = SessionEnd.exc := by
  decide

/-! ## C7: socket closure mid-frame -/

set_option maxRecDepth 4000 in
/-- C7 (code bug): when the peer closes after sending a serial header and
length byte (`0xC8 0x00 0x05`) but none of the five promised payload bytes,
`data = await reader.read(length)` returns the empty byte string at end of
stream, and the code stores the truncated value and notifies subscribers of
`("s1", "")` — a join-change event and a store mutation for an incomplete
frame, contrary to the claim (the availability-False notification does
happen). -/
theorem C7_partial_serial_mutates :
    (runSession [benignCB] none [[200, 0, 5]]).1.ser = [(1, [])] ∧
      (runSession [benignCB] none [[200, 0, 5]]).1.evs =
        [(0, "available", "True"), (0, "s1", ""), (0, "available", "False")] := by
  decide

/-! ## C3: the digital fan-out value string -/

def raiserD5 : CB := ⟨fun k _ => k == "d5"⟩

def syncOther : SyncB := ⟨fun _ => some .otherError⟩

def syncVE : SyncB := ⟨fun _ => some .valueError⟩

set_option maxRecDepth 4000 in
/-- C3 (counterexample): on the digital frame `0x80 0x04` the store does
record digital join 5 = true, but the subscriber is notified with
`("d5", "1")` — `str(value)` of the decoded 0/1 integer — and never with
the claimed `("d5", "True")`. -/
theorem C3_counterexample :
    (runSession [benignCB] none [[128, 4]]).1.dig = [(5, true)] ∧
      (0, "d5", "1") ∈ (runSession [benignCB] none [[128, 4]]).1.evs ∧
      (0, "d5", "True") ∉ (runSession [benignCB] none [[128, 4]]).1.evs := by
  decide

/-! ## C5: a raising subscriber aborts fan-out and the session -/

set_option maxRecDepth 4000 in
/-- C5 (counterexample): with two subscribers of which the first raises on
`"d5"` events, the digital frame `0x80 0x04` is decoded and stored, the
raising subscriber is invoked, but the second subscriber never receives the
`("d5", "1")` event and the session terminates before the following frame
`0x81 0x04` (digital join 133) is parsed — the exception is not confined to
the fan-out boundary, contrary to the claim. -/
theorem C5_counterexample :
    (runSession [raiserD5, benignCB] none [[128, 4], [129, 4]]).1.dig =
        [(5, true)] ∧
      (0, "d5", "1") ∈
        (runSession [raiserD5, benignCB] none [[128, 4], [129, 4]]).1.evs ∧
      (1, "d5", "1") ∉
        (runSession [raiserD5, benignCB] none [[128, 4], [129, 4]]).1.evs ∧
      (runSession [raiserD5, benignCB] none [[128, 4], [129, 4]]).2 =
        SessionEnd.exc := by
  decide

/-! ## C6: the sync-all-joins handler catches only ValueError -/

set_option maxRecDepth 4000 in
/-- C6 (counterexample): when the registered full-sync handler raises an
exception that is not a `ValueError`, the `except ValueError` clause does
not catch it: the handler is invoked once for the `0xFB` byte, but the
session terminates and the digital frame sent afterwards is never decoded,
contrary to the claim that any exception is caught and the session stays
open. -/
theorem C6_counterexample :
    (runSession [benignCB] (some syncOther) [[251], [128, 4]]).1.syncCount = 1 ∧
      (runSession [benignCB] (some syncOther) [[251], [128, 4]]).1.dig = [] ∧
      (0, "d5", "1") ∉
        (runSession [benignCB] (some syncOther) [[251], [128, 4]]).1.evs ∧
      (runSession [benignCB] (some syncOther) [[251], [128, 4]]).2 =
        SessionEnd.exc := by
  decide

/-- C3 (amended): for every well-formed digital frame delivered on an
active session with subscribers that do not raise, the store records the
decoded join with its boolean value, and every subscriber is notified with
the key `d<join>` and the *stringified 0/1 integer* decoded from the frame
(so `"1"` for an asserted join, not `"True"`). -/
theorem C3_digital_fanout (cbs : List CB) (hben : Benign cbs) (b0 b1 : Nat)
    (hd : b0 &&& 192 = 128) (hb : b1 &&& 128 = 0) :
    runSession cbs none [[b0, b1]] =
      (⟨[((((b0 &&& 31) <<< 7) ||| b1) + 1,
           if digitalBit b0 = 1 then true else false)], [], [],
        allEvs cbs "available" "True" ++
          (allEvs cbs (dKey ((((b0 &&& 31) <<< 7) ||| b1) + 1))
              (toString (digitalBit b0)) ++
            allEvs cbs "available" "False"), 0⟩, .clean) := by
  have hne : b0 ≠ 251 := by
    rintro rfl
    exact absurd hd (by decide)
  have h1 := fanOut_ok cbs "available" "True" (hben.pointwise _ _)
  have h2 := fanOut_ok cbs "available" "False" (hben.pointwise _ _)
  have h3 := fanOut_ok cbs (dKey ((((b0 &&& 31) <<< 7) ||| b1) + 1))
    (toString (digitalBit b0)) (hben.pointwise _ _)
  unfold runSession
  rw [h1]
  simp only [if_true]
  unfold loop readUpTo
  simp only [totalLen, List.map, List.length, List.sum_cons, List.sum_nil,
    List.take, List.drop, List.isEmpty_nil, List.isEmpty_cons, if_neg hne,
    hd, hb, h3, List.append_assoc]
  simp [hb, h3, h2, loop, readUpTo, List.append_assoc]

/-- Witness for `C3_digital_fanout` on the frame `0x80 0x04` with one
subscriber. -/
theorem C3_digital_fanout_witness :
    runSession [benignCB] none [[128, 4]] =
      (⟨[((((128 &&& 31) <<< 7) ||| 4) + 1,
           if digitalBit 128 = 1 then true else false)], [], [],
        allEvs [benignCB] "available" "True" ++
          (allEvs [benignCB] (dKey ((((128 &&& 31) <<< 7) ||| 4) + 1))
              (toString (digitalBit 128)) ++
            allEvs [benignCB] "available" "False"), 0⟩, .clean) :=
  C3_digital_fanout [benignCB]
    (fun cb hcb k v => by rcases List.mem_singleton.mp hcb with rfl; rfl)
    128 4 (by decide) (by decide)

/-- C6 (amended): the full-sync handler is invoked exactly once for a
`0xFB` byte; when it raises a `ValueError` the exception is caught and
logged and the session continues — a digital frame sent afterwards still
decodes, updates the store and is fanned out — but (per the
counterexample) any other exception terminates the session. -/
theorem C6_sync_valueerror (cbs : List CB) (hben : Benign cbs) (b0 b1 : Nat)
    (hd : b0 &&& 192 = 128) (hb : b1 &&& 128 = 0) :
    runSession cbs (some syncVE) [[251], [b0, b1]] =
      (⟨[((((b0 &&& 31) <<< 7) ||| b1) + 1,
           if digitalBit b0 = 1 then true else false)], [], [],
        allEvs cbs "available" "True" ++
          (allEvs cbs (dKey ((((b0 &&& 31) <<< 7) ||| b1) + 1))
              (toString (digitalBit b0)) ++
            allEvs cbs "available" "False"), 1⟩, .clean) := by
  have hne : b0 ≠ 251 := by
    rintro rfl
    exact absurd hd (by decide)
  have h1 := fanOut_ok cbs "available" "True" (hben.pointwise _ _)
  have h2 := fanOut_ok cbs "available" "False" (hben.pointwise _ _)
  have h3 := fanOut_ok cbs (dKey ((((b0 &&& 31) <<< 7) ||| b1) + 1))
    (toString (digitalBit b0)) (hben.pointwise _ _)
  unfold runSession
  rw [h1]
  simp only [if_true]
  unfold loop readUpTo
  simp only [totalLen, List.map, List.length, List.sum_cons, List.sum_nil,
    List.take, List.drop, List.isEmpty_nil, List.isEmpty_cons, if_neg hne,
    syncVE, hd, hb, h3, List.append_assoc]
  simp [hne, hd, hb, h3, h2, loop, readUpTo, syncVE, List.append_assoc]

/-- Witness for `C6_sync_valueerror` on `0xFB` then `0x80 0x04` with one
subscriber. -/
theorem C6_sync_valueerror_witness :
    runSession [benignCB] (some syncVE) [[251], [128, 4]] =
      (⟨[((((128 &&& 31) <<< 7) ||| 4) + 1,
           if digitalBit 128 = 1 then true else false)], [], [],
        allEvs [benignCB] "available" "True" ++
          (allEvs [benignCB] (dKey ((((128 &&& 31) <<< 7) ||| 4) + 1))
              (toString (digitalBit 128)) ++
            allEvs [benignCB] "available" "False"), 1⟩, .clean) :=
  C6_sync_valueerror [benignCB]
    (fun cb hcb k v => by rcases List.mem_singleton.mp hcb with rfl; rfl)
    128 4 (by decide) (by decide)

/-- C5 (amended): an exception raised inside a subscriber callback during
join-event fan-out is caught only by the session-level handler of
`handle_connection`: the store update that precedes the fan-out persists
and the subscribers before the raiser (and the raiser itself) are invoked,
but the remaining subscribers never receive the event, no further bytes
are parsed, and the session terminates with the availability-False
fan-out of the `finally` block. -/
theorem C5_subscriber_exc_aborts (pre post : List CB) (r : CB)
    (hpre : Benign pre) (hpost : Benign post)
    (hr : ∀ k v, r.raises k v = (k == dKey 5)) :
    runSession (pre ++ r :: post) none [[128, 4], [129, 4]] =
      (⟨[(5, true)], [], [],
        allEvs (pre ++ r :: post) "available" "True" ++
          ((allEvsFrom 0 pre.length (dKey 5) (toString (1 : Nat)) ++
              [(0 + pre.length, dKey 5, toString (1 : Nat))]) ++
            allEvs (pre ++ r :: post) "available" "False"), 0⟩, .exc) := by
  have havT : ∀ cb ∈ pre ++ r :: post, cb.raises "available" "True" = false := by
    intro cb hcb
    rcases List.mem_append.mp hcb with h | h
    · exact hpre.pointwise _ _ cb h
    · rcases List.mem_cons.mp h with rfl | h
      · rw [hr]; rfl
      · exact hpost.pointwise _ _ cb h
  have havF : ∀ cb ∈ pre ++ r :: post, cb.raises "available" "False" = false := by
    intro cb hcb
    rcases List.mem_append.mp hcb with h | h
    · exact hpre.pointwise _ _ cb h
    · rcases List.mem_cons.mp h with rfl | h
      · rw [hr]; rfl
      · exact hpost.pointwise _ _ cb h
  have hfanT := fanOut_ok (pre ++ r :: post) "available" "True" havT
  have hfanF := fanOut_ok (pre ++ r :: post) "available" "False" havF
  have hr5 : r.raises (dKey 5) (toString (1 : Nat)) = true := by rw [hr]; rfl
  have hfan5 := fanOutFrom_raiser pre post r (dKey 5) (toString (1 : Nat))
    (hpre.pointwise _ _) hr5 0
  have hbit : digitalBit 128 = 1 := by decide
  unfold runSession
  rw [hfanT]
  simp only [if_true]
  unfold loop readUpTo
  simp only [totalLen, List.map, List.length, List.sum_cons, List.sum_nil,
    List.take, List.drop, List.isEmpty_nil, List.isEmpty_cons, hbit,
    List.append_assoc]
  have c2 : (128 : Nat) &&& 192 = 128 := by decide
  have c3 : (4 : Nat) &&& 128 = 0 := by decide
  have c4 : (128 : Nat) &&& 31 = 0 := by decide
  have c5 : (0 : Nat) <<< 7 = 0 := by decide
  have c6 : (0 : Nat) ||| 4 = 4 := by decide
  have c7 : (4 : Nat) + 1 = 5 := by decide
  have hfanF' := fanOutFrom_ok (pre ++ r :: post) "available" "False" havF 0
  simp [c2, c3, c4, c5, c6, c7, fanOut, hfan5, hfanF, hfanF', hbit,
    List.append_assoc, allEvs]

/-- Witness for `C5_subscriber_exc_aborts` with the raiser as the first of
two subscribers. -/
theorem C5_subscriber_exc_aborts_witness :
    runSession ([] ++ raiserD5 :: [benignCB]) none [[128, 4], [129, 4]] =
      (⟨[(5, true)], [], [],
        allEvs ([] ++ raiserD5 :: [benignCB]) "available" "True" ++
          ((allEvsFrom 0 (List.length ([] : List CB)) (dKey 5)
                (toString (1 : Nat)) ++
              [(0 + List.length ([] : List CB), dKey 5, toString (1 : Nat))]) ++
            allEvs ([] ++ raiserD5 :: [benignCB]) "available" "False"), 0⟩,
        .exc) :=
  C5_subscriber_exc_aborts [] [benignCB] raiserD5
    (fun cb hcb => by cases hcb)
    (fun cb hcb k v => by rcases List.mem_singleton.mp hcb with rfl; rfl)
    (fun k v => rfl)

end Crestron
